import Mathlib

/-!
# Verification of the docuchain-backend document versioning & envelope-encryption pipeline

Shallow embedding of `src/utils/fileEncryption.js`, `src/utils/hash.js` and the
document controller (`createDocument` / `addVersion`) together with proofs of the
specified properties.

Byte buffers are modelled as `List Nat` with every entry `< 256`.
-/

/-- A byte buffer (Node `Buffer`): a list of byte values. -/
abbrev Bytes := List Nat

/-- Every entry of the buffer is an actual byte value. -/
def ValidBytes (bs : Bytes) : Prop := ∀ b ∈ bs, b < 256

instance (bs : Bytes) : Decidable (ValidBytes bs) := by
  unfold ValidBytes; infer_instance

/-! ## Hex encoding (Node `Buffer.prototype.toString("hex")` / `Buffer.from(s, "hex")`) -/

/-- Lower-case hex digit for a value `< 16` (`0`-`9`, `a`-`f`). -/
def hexDigit (n : Nat) : Char :=
  if n < 10 then Char.ofNat (48 + n) else Char.ofNat (87 + n)

/-- The two hex characters of one byte, high nibble first. -/
def hexPair (b : Nat) : List Char := [hexDigit (b / 16), hexDigit (b % 16)]

/-- Hex encoding of a buffer, as `Buffer.prototype.toString("hex")`. -/
def hexEncode (bs : Bytes) : List Char := (bs.map hexPair).flatten

/-- Numeric value of a lower-case hex character. -/
def hexValue (c : Char) : Nat :=
  if 97 ≤ c.toNat then c.toNat - 87 else c.toNat - 48

/-- Hex decoding, as `Buffer.from(s, "hex")`: consumes character pairs. -/
def hexDecode : List Char → Bytes
  | c1 :: c2 :: rest => (16 * hexValue c1 + hexValue c2) :: hexDecode rest
  | _ => []

theorem hexEncode_cons (b : Nat) (bs : Bytes) :
    hexEncode (b :: bs) = hexDigit (b / 16) :: hexDigit (b % 16) :: hexEncode bs := rfl

theorem hexValue_hexDigit : ∀ n < 16, hexValue (hexDigit n) = n := by decide

theorem hexEncode_length (bs : Bytes) : (hexEncode bs).length = 2 * bs.length := by
  induction bs with
  | nil => rfl
  | cons b bs ih =>
      rw [hexEncode_cons]
      simp only [List.length_cons, ih]
      omega

theorem hexDecode_hexEncode (bs : Bytes) (h : ValidBytes bs) :
    hexDecode (hexEncode bs) = bs := by
  induction bs with
  | nil => rfl
  | cons b bs ih =>
      have hb : b < 256 := h b (List.mem_cons_self _ _)
      have hbs : ValidBytes bs := fun x hx => h x (List.mem_cons_of_mem _ hx)
      rw [hexEncode_cons]
      show (16 * hexValue (hexDigit (b / 16)) + hexValue (hexDigit (b % 16))) :: _ = _
      rw [hexValue_hexDigit (b / 16) (by omega), hexValue_hexDigit (b % 16) (by omega),
        ih hbs]
      congr 1
      omega

theorem hexEncode_injOn {a b : Bytes} (ha : ValidBytes a) (hb : ValidBytes b)
    (h : hexEncode a = hexEncode b) : a = b := by
  rw [← hexDecode_hexEncode a ha, ← hexDecode_hexEncode b hb, h]

/-! ## AEAD cipher interface (Node `aes-256-gcm` via `createCipheriv`/`createDecipheriv`)

The cipher itself is a Node library primitive, not repository code; it is modelled
as an abstract authenticated-encryption scheme with the properties AES-256-GCM
provides: `enc key iv plaintext` yields `(ciphertext, authTag)` with a 16-byte tag
and length-preserving ciphertext, and `dec` inverts `enc` exactly when the tag
verifies. -/

structure AEAD where
  /-- `enc key iv plaintext = (ciphertext, authTag)`. -/
  enc : Bytes → Bytes → Bytes → Bytes × Bytes
  /-- `dec key iv ciphertext authTag` returns the plaintext, or `none` when the
  authentication tag does not verify. -/
  dec : Bytes → Bytes → Bytes → Bytes → Option Bytes
  /-- Decryption inverts encryption under the same key and iv. -/
  enc_dec : ∀ k iv pt, dec k iv (enc k iv pt).1 (enc k iv pt).2 = some pt
  /-- GCM authentication tags are 16 bytes. -/
  tag_len : ∀ k iv pt, (enc k iv pt).2.length = 16
  /-- GCM ciphertext has the same length as the plaintext. -/
  ct_len : ∀ k iv pt, (enc k iv pt).1.length = pt.length
  /-- Ciphertext entries are bytes. -/
  ct_bytes : ∀ k iv pt, ValidBytes pt → ValidBytes (enc k iv pt).1
  /-- Tag entries are bytes. -/
  tag_bytes : ∀ k iv pt, ValidBytes (enc k iv pt).2

/-! A concrete executable instance of the interface (a toy stream cipher with a
checksum tag), used to evaluate the pipeline on concrete inputs. -/

/-- Sum of a buffer's entries. -/
def byteSum (bs : Bytes) : Nat := bs.foldl (· + ·) 0

/-- Toy keystream of length `n` derived from key and iv. -/
def toyStream (key iv : Bytes) (n : Nat) : Bytes :=
  (List.range n).map fun i => (byteSum key * 31 + byteSum iv * 7 + i * 13 + 5) % 256

/-- Toy 16-byte authentication tag over key, iv and ciphertext. -/
def toyTag (key iv ct : Bytes) : Bytes :=
  (List.range 16).map fun i => (byteSum key + 3 * byteSum iv + 5 * byteSum ct + i) % 256

theorem toyStream_length (key iv : Bytes) (n : Nat) : (toyStream key iv n).length = n := by
  simp [toyStream]

theorem zipWith_xor_cancel :
    ∀ (pt s : Bytes), pt.length ≤ s.length →
      List.zipWith Nat.xor (List.zipWith Nat.xor pt s) s = pt := by
  intro pt
  induction pt with
  | nil => intro s _; simp
  | cons p pt ih =>
      intro s hs
      cases s with
      | nil => simp at hs
      | cons a s =>
          simp only [List.zipWith_cons_cons, List.cons.injEq]
          refine ⟨?_, ih s (by simpa using hs)⟩
          show p ^^^ a ^^^ a = p
          rw [Nat.xor_assoc, Nat.xor_self, Nat.xor_zero]

theorem xor_byte_lt {a b : Nat} (ha : a < 256) (hb : b < 256) : a ^^^ b < 256 := by
  have : a ^^^ b < 2 ^ 8 := Nat.xor_lt_two_pow (by simpa using ha) (by simpa using hb)
  simpa using this

theorem mem_zipWith_xor :
    ∀ (l1 l2 : Bytes), ∀ b ∈ List.zipWith Nat.xor l1 l2, ∃ x ∈ l1, ∃ y ∈ l2, b = x ^^^ y := by
  intro l1
  induction l1 with
  | nil => simp
  | cons a l1 ih =>
      intro l2 b hb
      cases l2 with
      | nil => simp at hb
      | cons c l2 =>
          simp only [List.zipWith_cons_cons, List.mem_cons] at hb
          rcases hb with rfl | hb
          · exact ⟨a, by simp, c, by simp, rfl⟩
          · rcases ih l2 b hb with ⟨x, hx, y, hy, rfl⟩
            exact ⟨x, by simp [hx], y, by simp [hy], rfl⟩

theorem toyStream_bytes (key iv : Bytes) (n : Nat) : ValidBytes (toyStream key iv n) := by
  intro b hb
  simp only [toyStream, List.mem_map] at hb
  rcases hb with ⟨j, _, rfl⟩
  exact Nat.mod_lt _ (by omega)

theorem toyTag_bytes (key iv ct : Bytes) : ValidBytes (toyTag key iv ct) := by
  intro b hb
  simp only [toyTag, List.mem_map] at hb
  rcases hb with ⟨j, _, rfl⟩
  exact Nat.mod_lt _ (by omega)

/-- Toy encryption: xor with `toyStream`, tagged by `toyTag`. -/
def toyEnc (key iv pt : Bytes) : Bytes × Bytes :=
  (List.zipWith Nat.xor pt (toyStream key iv pt.length),
   toyTag key iv (List.zipWith Nat.xor pt (toyStream key iv pt.length)))

/-- Toy decryption: verify `toyTag`, then xor away the stream. -/
def toyDec (key iv ct tag : Bytes) : Option Bytes :=
  if tag = toyTag key iv ct then
    some (List.zipWith Nat.xor ct (toyStream key iv ct.length))
  else none

/-- The toy AEAD scheme packaged with its correctness properties. -/
def toyAEAD : AEAD where
  enc := toyEnc
  dec := toyDec
  enc_dec := by
    intro k iv pt
    unfold toyEnc toyDec
    rw [if_pos rfl]
    have hlen : (List.zipWith Nat.xor pt (toyStream k iv pt.length)).length = pt.length := by
      simp [toyStream_length]
    rw [hlen, zipWith_xor_cancel pt (toyStream k iv pt.length) (by rw [toyStream_length])]
  tag_len := by intro k iv pt; simp [toyEnc, toyTag]
  ct_len := by intro k iv pt; simp [toyEnc, toyStream_length]
  ct_bytes := by
    intro k iv pt hpt b hb
    rcases mem_zipWith_xor _ _ b hb with ⟨x, hx, y, hy, rfl⟩
    exact xor_byte_lt (hpt x hx) (toyStream_bytes k iv pt.length y hy)
  tag_bytes := by
    intro k iv pt
    exact toyTag_bytes _ _ _

/-! ## Envelope encryption (`src/utils/fileEncryption.js`) -/

/-- `IV_LENGTH = 12` (GCM standard). -/
def IV_LENGTH : Nat := 12

/-- `AUTH_TAG_LENGTH = 16` (GCM standard). -/
def AUTH_TAG_LENGTH : Nat := 16

/-- `KEY_LENGTH = 32` (256 bits for AES-256). -/
def KEY_LENGTH : Nat := 32

/-- `Buffer.prototype.slice(a, b)`. -/
def bufSlice (l : Bytes) (a b : Nat) : Bytes := (l.drop a).take (b - a)

/-- `Buffer.prototype.slice(a)` (to the end). -/
def bufSliceFrom (l : Bytes) (a : Nat) : Bytes := l.drop a

/-- The three `crypto.randomBytes` draws one `encryptFile` invocation makes:
a fresh content key and two fresh ivs. -/
structure EncRandomness where
  fileKey : Bytes
  fileIv : Bytes
  keyIv : Bytes

/-- What `crypto.randomBytes(KEY_LENGTH)` / `crypto.randomBytes(IV_LENGTH)`
guarantee about the draws: the requested lengths, and byte-valued entries. -/
def EncRandomness.Valid (r : EncRandomness) : Prop :=
  r.fileKey.length = KEY_LENGTH ∧ ValidBytes r.fileKey ∧
  r.fileIv.length = IV_LENGTH ∧ ValidBytes r.fileIv ∧
  r.keyIv.length = IV_LENGTH ∧ ValidBytes r.keyIv

instance (r : EncRandomness) : Decidable r.Valid := by
  unfold EncRandomness.Valid; infer_instance

/-- `encryptFile` (fileEncryption.js lines 21-79): encrypt the buffer under the
fresh `fileKey`/`fileIv`, frame `fileIv ++ fileAuthTag ++ ciphertext`; wrap the
`fileKey` under `MASTER_KEY`/`keyIv`, frame and hex-encode
`keyIv ++ keyAuthTag ++ encryptedKeyCiphertext`. -/
def encryptFile (A : AEAD) (MASTER_KEY : Bytes) (rnd : EncRandomness) (buffer : Bytes) :
    Bytes × List Char :=
  let fileKey := rnd.fileKey
  let fileIv := rnd.fileIv
  let fileEnc := A.enc fileKey fileIv buffer
  let ciphertext := fileEnc.1
  let fileAuthTag := fileEnc.2
  let encryptedFileBuffer := fileIv ++ fileAuthTag ++ ciphertext
  let keyIv := rnd.keyIv
  let keyEnc := A.enc MASTER_KEY keyIv fileKey
  let encryptedKeyCiphertext := keyEnc.1
  let keyAuthTag := keyEnc.2
  let encryptedKeyPayload := hexEncode (keyIv ++ keyAuthTag ++ encryptedKeyCiphertext)
  (encryptedFileBuffer, encryptedKeyPayload)

/-- The possible `decryptFile` failures: the two `throw new Error(...)` sites. -/
inductive DecryptError
  | keyUnseal
  | contentDecrypt
  deriving DecidableEq, Repr

/-- The message each failure carries. -/
def DecryptError.message : DecryptError → String
  | .keyUnseal => "Failed to decrypt file key: authentication failed"
  | .contentDecrypt => "Failed to decrypt file: authentication failed"

/-- Key-unwrap stage of `decryptFile` (lines 95-125): hex-decode the payload,
split `keyIv (12) | keyAuthTag (16) | encryptedKeyCiphertext`, decrypt the file
key under `MASTER_KEY`. -/
def unwrapFileKey (A : AEAD) (MASTER_KEY : Bytes) (encryptedKeyPayload : List Char) :
    Option Bytes :=
  let encryptedKeyBuffer := hexDecode encryptedKeyPayload
  let keyIv := bufSlice encryptedKeyBuffer 0 IV_LENGTH
  let keyAuthTag := bufSlice encryptedKeyBuffer IV_LENGTH (IV_LENGTH + AUTH_TAG_LENGTH)
  let encryptedKeyCiphertext := bufSliceFrom encryptedKeyBuffer (IV_LENGTH + AUTH_TAG_LENGTH)
  A.dec MASTER_KEY keyIv encryptedKeyCiphertext keyAuthTag

/-- Content stage of `decryptFile` (lines 130-155): split
`fileIv (12) | fileAuthTag (16) | ciphertext` and decrypt under the recovered
file key. -/
def decryptContent (A : AEAD) (fileKey : Bytes) (encryptedFileBuffer : Bytes) :
    Option Bytes :=
  let fileIv := bufSlice encryptedFileBuffer 0 IV_LENGTH
  let fileAuthTag := bufSlice encryptedFileBuffer IV_LENGTH (IV_LENGTH + AUTH_TAG_LENGTH)
  let ciphertext := bufSliceFrom encryptedFileBuffer (IV_LENGTH + AUTH_TAG_LENGTH)
  A.dec fileKey fileIv ciphertext fileAuthTag

/-- `decryptFile` (lines 88-158): unwrap the file key first; only if that
authenticates, decrypt the content. -/
def decryptFile (A : AEAD) (MASTER_KEY : Bytes) (encryptedFileBuffer : Bytes)
    (encryptedKeyPayload : List Char) : Except DecryptError Bytes :=
  match unwrapFileKey A MASTER_KEY encryptedKeyPayload with
  | none => .error .keyUnseal
  | some fileKey =>
    match decryptContent A fileKey encryptedFileBuffer with
    | none => .error .contentDecrypt
    | some plaintext => .ok plaintext

/-! Framing lemmas: recovering the three components from an
`iv ++ tag ++ rest` frame. -/

theorem bufSlice_frame_iv {iv tag rest : Bytes} (hiv : iv.length = 12) :
    bufSlice (iv ++ tag ++ rest) 0 IV_LENGTH = iv := by
  unfold bufSlice IV_LENGTH
  rw [List.drop_zero, List.append_assoc, ← hiv]
  simp

theorem bufSlice_frame_tag {iv tag rest : Bytes} (hiv : iv.length = 12)
    (htag : tag.length = 16) :
    bufSlice (iv ++ tag ++ rest) IV_LENGTH (IV_LENGTH + AUTH_TAG_LENGTH) = tag := by
  unfold bufSlice IV_LENGTH AUTH_TAG_LENGTH
  rw [List.append_assoc]
  have h1 : List.drop 12 (iv ++ (tag ++ rest)) = tag ++ rest := by
    rw [← hiv]; exact List.drop_left iv (tag ++ rest)
  rw [h1, show 12 + 16 - 12 = 16 from rfl, ← htag]
  exact List.take_left tag rest

theorem bufSliceFrom_frame_rest {iv tag rest : Bytes} (hiv : iv.length = 12)
    (htag : tag.length = 16) :
    bufSliceFrom (iv ++ tag ++ rest) (IV_LENGTH + AUTH_TAG_LENGTH) = rest := by
  unfold bufSliceFrom IV_LENGTH AUTH_TAG_LENGTH
  rw [show 12 + 16 = (iv ++ tag).length by simp [hiv, htag], List.drop_left]

theorem validBytes_append {a b : Bytes} (ha : ValidBytes a) (hb : ValidBytes b) :
    ValidBytes (a ++ b) := by
  intro x hx
  rcases List.mem_append.1 hx with h | h
  · exact ha x h
  · exact hb x h

/-- The sealed-content frame produced by `encryptFile`. -/
theorem encryptFile_fst (A : AEAD) (MASTER_KEY : Bytes) (rnd : EncRandomness)
    (buffer : Bytes) :
    (encryptFile A MASTER_KEY rnd buffer).1 =
      rnd.fileIv ++ (A.enc rnd.fileKey rnd.fileIv buffer).2 ++
        (A.enc rnd.fileKey rnd.fileIv buffer).1 := rfl

/-- The wrapped-key payload produced by `encryptFile`. -/
theorem encryptFile_snd (A : AEAD) (MASTER_KEY : Bytes) (rnd : EncRandomness)
    (buffer : Bytes) :
    (encryptFile A MASTER_KEY rnd buffer).2 =
      hexEncode (rnd.keyIv ++ (A.enc MASTER_KEY rnd.keyIv rnd.fileKey).2 ++
        (A.enc MASTER_KEY rnd.keyIv rnd.fileKey).1) := rfl

/-- The wrapped-key bytes behind the payload are all valid bytes. -/
theorem keyFrame_validBytes (A : AEAD) (MASTER_KEY : Bytes) (rnd : EncRandomness)
    (h : rnd.Valid) :
    ValidBytes (rnd.keyIv ++ (A.enc MASTER_KEY rnd.keyIv rnd.fileKey).2 ++
      (A.enc MASTER_KEY rnd.keyIv rnd.fileKey).1) := by
  obtain ⟨_, hkb, _, _, _, hib⟩ := h
  exact validBytes_append (validBytes_append hib (A.tag_bytes _ _ _))
    (A.ct_bytes _ _ _ hkb)

/-- Unwrapping the key payload that `encryptFile` produced recovers the content
key. -/
theorem unwrapFileKey_encryptFile (A : AEAD) (MASTER_KEY : Bytes)
    (rnd : EncRandomness) (buffer : Bytes) (h : rnd.Valid) :
    unwrapFileKey A MASTER_KEY (encryptFile A MASTER_KEY rnd buffer).2 =
      some rnd.fileKey := by
  have hkey := keyFrame_validBytes A MASTER_KEY rnd h
  obtain ⟨hkl, hkb, hfl, hfb, hil, hib⟩ := h
  rw [encryptFile_snd]
  show A.dec MASTER_KEY _ _ _ = _
  rw [hexDecode_hexEncode _ hkey, bufSlice_frame_iv hil, bufSlice_frame_tag hil (A.tag_len _ _ _),
    bufSliceFrom_frame_rest hil (A.tag_len _ _ _)]
  exact A.enc_dec _ _ _

/-- Decrypting the sealed content that `encryptFile` produced recovers the
plaintext. -/
theorem decryptContent_encryptFile (A : AEAD) (MASTER_KEY : Bytes)
    (rnd : EncRandomness) (buffer : Bytes) (h : rnd.Valid) :
    decryptContent A rnd.fileKey (encryptFile A MASTER_KEY rnd buffer).1 =
      some buffer := by
  obtain ⟨hkl, hkb, hfl, hfb, hil, hib⟩ := h
  rw [encryptFile_fst]
  show A.dec rnd.fileKey _ _ _ = _
  rw [bufSlice_frame_iv hfl, bufSlice_frame_tag hfl (A.tag_len _ _ _),
    bufSliceFrom_frame_rest hfl (A.tag_len _ _ _)]
  exact A.enc_dec _ _ _

/-- C1: for every plaintext byte buffer (including the empty buffer), decrypting
the pair produced by encryption returns the original buffer:
`decryptFile (encryptFile buffer).encryptedFileBuffer (encryptFile buffer).encryptedKeyPayload = buffer`
under the same master key. -/
theorem C1_decrypt_encrypt_roundtrip (A : AEAD) (MASTER_KEY : Bytes)
    (rnd : EncRandomness) (buffer : Bytes) (h : rnd.Valid) :
    decryptFile A MASTER_KEY (encryptFile A MASTER_KEY rnd buffer).1
      (encryptFile A MASTER_KEY rnd buffer).2 = .ok buffer := by
  unfold decryptFile
  rw [unwrapFileKey_encryptFile A MASTER_KEY rnd buffer h]
  simp only [decryptContent_encryptFile A MASTER_KEY rnd buffer h]

/-- Concrete master key used to evaluate the pipeline. -/
def wMasterKey : Bytes := List.replicate 32 7

/-- Concrete randomness draw used to evaluate the pipeline. -/
def wRnd : EncRandomness :=
  ⟨List.replicate 32 3, List.replicate 12 1, List.replicate 12 2⟩

/-- A second concrete randomness draw, differing in both ivs. -/
def wRnd2 : EncRandomness :=
  ⟨List.replicate 32 4, List.replicate 12 9, List.replicate 12 8⟩

/-- C1 witness: the round trip evaluated on a concrete 3-byte buffer. -/
theorem C1_witness :
    wRnd.Valid ∧
    decryptFile toyAEAD wMasterKey (encryptFile toyAEAD wMasterKey wRnd [10, 20, 30]).1
      (encryptFile toyAEAD wMasterKey wRnd [10, 20, 30]).2 = .ok [10, 20, 30] :=
  ⟨by decide, C1_decrypt_encrypt_roundtrip toyAEAD wMasterKey wRnd [10, 20, 30] (by decide)⟩

/-- C5: for every plaintext, `encryptFile` produces the sealed content as the
fixed-offset concatenation of the 12-byte nonce, the 16-byte authentication tag
and a ciphertext of the plaintext's length, and produces the wrapped key as the
hex encoding of a 12-byte nonce, 16-byte tag and 32-byte key-ciphertext —
exactly 60 bytes, i.e. exactly 120 hex characters. -/
theorem C5_encryptFile_format (A : AEAD) (MASTER_KEY : Bytes) (rnd : EncRandomness)
    (buffer : Bytes) (h : rnd.Valid) :
    (encryptFile A MASTER_KEY rnd buffer).1 =
      rnd.fileIv ++ (A.enc rnd.fileKey rnd.fileIv buffer).2 ++
        (A.enc rnd.fileKey rnd.fileIv buffer).1 ∧
    rnd.fileIv.length = 12 ∧
    (A.enc rnd.fileKey rnd.fileIv buffer).2.length = 16 ∧
    (A.enc rnd.fileKey rnd.fileIv buffer).1.length = buffer.length ∧
    (hexDecode (encryptFile A MASTER_KEY rnd buffer).2).length = 60 ∧
    (encryptFile A MASTER_KEY rnd buffer).2.length = 120 := by
  have hkey := keyFrame_validBytes A MASTER_KEY rnd h
  obtain ⟨hkl, hkb, hfl, hfb, hil, hib⟩ := h
  refine ⟨encryptFile_fst A MASTER_KEY rnd buffer, hfl, A.tag_len _ _ _, A.ct_len _ _ _, ?_, ?_⟩
  · rw [encryptFile_snd, hexDecode_hexEncode _ hkey]
    simp only [List.length_append, hil, A.tag_len, A.ct_len, hkl]
    rfl
  · rw [encryptFile_snd, hexEncode_length]
    simp only [List.length_append, hil, A.tag_len, A.ct_len, hkl]
    rfl

/-- C5 witness: the format facts evaluated on a concrete 5-byte buffer. -/
theorem C5_witness :
    wRnd.Valid ∧
    ((encryptFile toyAEAD wMasterKey wRnd [1, 2, 3, 4, 5]).1 =
      wRnd.fileIv ++ (toyAEAD.enc wRnd.fileKey wRnd.fileIv [1, 2, 3, 4, 5]).2 ++
        (toyAEAD.enc wRnd.fileKey wRnd.fileIv [1, 2, 3, 4, 5]).1 ∧
    wRnd.fileIv.length = 12 ∧
    (toyAEAD.enc wRnd.fileKey wRnd.fileIv [1, 2, 3, 4, 5]).2.length = 16 ∧
    (toyAEAD.enc wRnd.fileKey wRnd.fileIv [1, 2, 3, 4, 5]).1.length =
      ([1, 2, 3, 4, 5] : Bytes).length ∧
    (hexDecode (encryptFile toyAEAD wMasterKey wRnd [1, 2, 3, 4, 5]).2).length = 60 ∧
    (encryptFile toyAEAD wMasterKey wRnd [1, 2, 3, 4, 5]).2.length = 120) :=
  ⟨by decide, C5_encryptFile_format toyAEAD wMasterKey wRnd [1, 2, 3, 4, 5] (by decide)⟩

/-- C4: `decryptFile` fails with the key-unseal error whenever the key layer's
authentication does not verify, and does so regardless of the sealed content
(no content decryption is attempted); if the key layer verifies but the content
layer's tag does not, it fails with the content-decrypt error; and it returns a
plaintext only when both authentication checks pass. -/
theorem C4_decrypt_error_discipline (A : AEAD) (MASTER_KEY sealedContent : Bytes)
    (wrappedKey : List Char) :
    (unwrapFileKey A MASTER_KEY wrappedKey = none →
      ∀ otherSealedContent : Bytes,
        decryptFile A MASTER_KEY otherSealedContent wrappedKey =
          .error .keyUnseal) ∧
    (∀ fileKey, unwrapFileKey A MASTER_KEY wrappedKey = some fileKey →
      decryptContent A fileKey sealedContent = none →
        decryptFile A MASTER_KEY sealedContent wrappedKey = .error .contentDecrypt) ∧
    (∀ plaintext, decryptFile A MASTER_KEY sealedContent wrappedKey = .ok plaintext →
      ∃ fileKey, unwrapFileKey A MASTER_KEY wrappedKey = some fileKey ∧
        decryptContent A fileKey sealedContent = some plaintext) := by
  refine ⟨?_, ?_, ?_⟩
  · intro hnone other
    unfold decryptFile
    rw [hnone]
  · intro fileKey hsome hnone
    unfold decryptFile
    rw [hsome]
    simp only [hnone]
  · intro plaintext hok
    unfold decryptFile at hok
    cases hu : unwrapFileKey A MASTER_KEY wrappedKey with
    | none => rw [hu] at hok; exact absurd hok (by simp)
    | some fileKey =>
        rw [hu] at hok
        cases hc : decryptContent A fileKey sealedContent with
        | none => simp only [hc] at hok; exact absurd hok (by simp)
        | some pt =>
            simp only [hc] at hok
            refine ⟨fileKey, rfl, ?_⟩
            rw [hc]
            exact congrArg some (Except.ok.inj hok)

/-- C4 witness: on an all-zero 60-byte wrapped-key payload the key layer fails
to authenticate under the toy scheme and decryption reports the key-unseal
error without consulting the sealed content. -/
theorem C4_witness :
    unwrapFileKey toyAEAD wMasterKey (hexEncode (List.replicate 60 0)) = none ∧
    decryptFile toyAEAD wMasterKey [3, 1, 4] (hexEncode (List.replicate 60 0)) =
      .error .keyUnseal := by
  have hnone : unwrapFileKey toyAEAD wMasterKey (hexEncode (List.replicate 60 0)) = none := by
    decide
  exact ⟨hnone,
    (C4_decrypt_error_discipline toyAEAD wMasterKey [3, 1, 4]
      (hexEncode (List.replicate 60 0))).1 hnone [3, 1, 4]⟩

/-- C9: two invocations of `encryptFile` on identical plaintext with fresh
randomness (in particular, distinct content-layer and key-layer nonces) produce
different sealed content and different wrapped-key payloads. -/
theorem C9_key_independence (A : AEAD) (MASTER_KEY : Bytes)
    (rnd1 rnd2 : EncRandomness) (buffer : Bytes)
    (h1 : rnd1.Valid) (h2 : rnd2.Valid)
    (hfi : rnd1.fileIv ≠ rnd2.fileIv) (hki : rnd1.keyIv ≠ rnd2.keyIv) :
    (encryptFile A MASTER_KEY rnd1 buffer).1 ≠ (encryptFile A MASTER_KEY rnd2 buffer).1 ∧
    (encryptFile A MASTER_KEY rnd1 buffer).2 ≠ (encryptFile A MASTER_KEY rnd2 buffer).2 := by
  have hk1 := keyFrame_validBytes A MASTER_KEY rnd1 h1
  have hk2 := keyFrame_validBytes A MASTER_KEY rnd2 h2
  obtain ⟨_, _, hfl1, _, hil1, _⟩ := h1
  obtain ⟨_, _, hfl2, _, hil2, _⟩ := h2
  constructor
  · intro heq
    rw [encryptFile_fst, encryptFile_fst] at heq
    apply hfi
    have := congrArg (fun l => bufSlice l 0 IV_LENGTH) heq
    simpa only [bufSlice_frame_iv hfl1, bufSlice_frame_iv hfl2] using this
  · intro heq
    rw [encryptFile_snd, encryptFile_snd] at heq
    have hframes := hexEncode_injOn hk1 hk2 heq
    apply hki
    have := congrArg (fun l => bufSlice l 0 IV_LENGTH) hframes
    simpa only [bufSlice_frame_iv hil1, bufSlice_frame_iv hil2] using this

/-- C9 witness: two concrete randomness draws with distinct nonces yield
distinct artifacts on the same plaintext. -/
theorem C9_witness :
    wRnd.Valid ∧ wRnd2.Valid ∧ wRnd.fileIv ≠ wRnd2.fileIv ∧ wRnd.keyIv ≠ wRnd2.keyIv ∧
    ((encryptFile toyAEAD wMasterKey wRnd [9, 9]).1 ≠
        (encryptFile toyAEAD wMasterKey wRnd2 [9, 9]).1 ∧
      (encryptFile toyAEAD wMasterKey wRnd [9, 9]).2 ≠
        (encryptFile toyAEAD wMasterKey wRnd2 [9, 9]).2) :=
  ⟨by decide, by decide, by decide, by decide,
    C9_key_independence toyAEAD wMasterKey wRnd wRnd2 [9, 9]
      (by decide) (by decide) (by decide) (by decide)⟩

/-! ## SHA-256 (`src/utils/hash.js`: `crypto.createHash("sha256")`)

The hash is a Node library primitive; it is embedded here as the full FIPS 180-4
SHA-256 algorithm over byte lists, with 32-bit words as `Nat` reduced mod `2^32`. -/

/-- 32-bit right rotation. -/
def rotr32 (x n : Nat) : Nat := ((x >>> n) ||| (x <<< (32 - n))) % 4294967296

/-- SHA-256 `Ch(x,y,z)`. -/
def sha256Ch (x y z : Nat) : Nat := (x &&& y) ^^^ ((x ^^^ 4294967295) &&& z)

/-- SHA-256 `Maj(x,y,z)`. -/
def sha256Maj (x y z : Nat) : Nat := (x &&& y) ^^^ (x &&& z) ^^^ (y &&& z)

/-- SHA-256 `Σ0`. -/
def sha256S0 (x : Nat) : Nat := rotr32 x 2 ^^^ rotr32 x 13 ^^^ rotr32 x 22

/-- SHA-256 `Σ1`. -/
def sha256S1 (x : Nat) : Nat := rotr32 x 6 ^^^ rotr32 x 11 ^^^ rotr32 x 25

/-- SHA-256 `σ0`. -/
def sha256s0 (x : Nat) : Nat := rotr32 x 7 ^^^ rotr32 x 18 ^^^ (x >>> 3)

/-- SHA-256 `σ1`. -/
def sha256s1 (x : Nat) : Nat := rotr32 x 17 ^^^ rotr32 x 19 ^^^ (x >>> 10)

/-- The 64 SHA-256 round constants. -/
def sha256K : List Nat :=
  [1116352408, 1899447441, 3049323471, 3921009573, 961987163,
   1508970993, 2453635748, 2870763221, 3624381080, 310598401,
   607225278, 1426881987, 1925078388, 2162078206, 2614888103,
   3248222580, 3835390401, 4022224774, 264347078, 604807628,
   770255983, 1249150122, 1555081692, 1996064986, 2554220882,
   2821834349, 2952996808, 3210313671, 3336571891, 3584528711,
   113926993, 338241895, 666307205, 773529912, 1294757372,
   1396182291, 1695183700, 1986661051, 2177026350, 2456956037,
   2730485921, 2820302411, 3259730800, 3345764771, 3516065817,
   3600352804, 4094571909, 275423344, 430227734, 506948616,
   659060556, 883997877, 958139571, 1322822218, 1537002063,
   1747873779, 1955562222, 2024104815, 2227730452, 2361852424,
   2428436474, 2756734187, 3204031479, 3329325298]

/-- The eight SHA-256 working variables / hash words. -/
structure Sha256State where
  a : Nat
  b : Nat
  c : Nat
  d : Nat
  e : Nat
  f : Nat
  g : Nat
  hh : Nat

/-- The SHA-256 initial hash value. -/
def sha256Init : Sha256State :=
  ⟨1779033703, 3144134277, 1013904242, 2773480762,
   1359893119, 2600822924, 528734635, 1541459225⟩

/-- One compression round with schedule word `w` and constant `k`. -/
def sha256Round (s : Sha256State) (wk : Nat × Nat) : Sha256State :=
  let t1 := (s.hh + sha256S1 s.e + sha256Ch s.e s.f s.g + wk.2 + wk.1) % 4294967296
  let t2 := (sha256S0 s.a + sha256Maj s.a s.b s.c) % 4294967296
  ⟨(t1 + t2) % 4294967296, s.a, s.b, s.c, (s.d + t1) % 4294967296, s.e, s.f, s.g⟩

/-- The 64-word message schedule of one 64-byte block. -/
def sha256Schedule (block : Bytes) : List Nat :=
  (List.range 64).foldl
    (fun w i =>
      w ++ [if i < 16 then
              ((block.getD (4 * i) 0) <<< 24 ||| (block.getD (4 * i + 1) 0) <<< 16 |||
               (block.getD (4 * i + 2) 0) <<< 8 ||| block.getD (4 * i + 3) 0) % 4294967296
            else
              (sha256s1 (w.getD (i - 2) 0) + w.getD (i - 7) 0 +
               sha256s0 (w.getD (i - 15) 0) + w.getD (i - 16) 0) % 4294967296])
    []

/-- Process one 64-byte block. -/
def sha256Block (s : Sha256State) (block : Bytes) : Sha256State :=
  let t := ((sha256Schedule block).zip sha256K).foldl sha256Round s
  ⟨(s.a + t.a) % 4294967296, (s.b + t.b) % 4294967296, (s.c + t.c) % 4294967296,
   (s.d + t.d) % 4294967296, (s.e + t.e) % 4294967296, (s.f + t.f) % 4294967296,
   (s.g + t.g) % 4294967296, (s.hh + t.hh) % 4294967296⟩

/-- SHA-256 padding: `0x80`, zeros to 56 mod 64, then the 64-bit bit length. -/
def sha256Pad (msg : Bytes) : Bytes :=
  let bitLen := 8 * msg.length
  let zeros := (119 - msg.length % 64) % 64
  msg ++ [128] ++ List.replicate zeros 0 ++
    [(bitLen >>> 56) % 256, (bitLen >>> 48) % 256, (bitLen >>> 40) % 256,
     (bitLen >>> 32) % 256, (bitLen >>> 24) % 256, (bitLen >>> 16) % 256,
     (bitLen >>> 8) % 256, bitLen % 256]

/-- Split a buffer into 64-byte chunks. -/
def chunks64 (l : Bytes) : List Bytes :=
  if h : l = [] then [] else l.take 64 :: chunks64 (l.drop 64)
termination_by l.length
decreasing_by
  simp only [List.length_drop]
  have : 0 < l.length := List.length_pos.2 h
  omega

/-- Big-endian bytes of a 32-bit word. -/
def wordBytes (w : Nat) : Bytes :=
  [(w >>> 24) % 256, (w >>> 16) % 256, (w >>> 8) % 256, w % 256]

/-- SHA-256 digest (32 bytes) of a byte buffer. -/
def sha256 (msg : Bytes) : Bytes :=
  let s := (chunks64 (sha256Pad msg)).foldl sha256Block sha256Init
  wordBytes s.a ++ wordBytes s.b ++ wordBytes s.c ++ wordBytes s.d ++
    wordBytes s.e ++ wordBytes s.f ++ wordBytes s.g ++ wordBytes s.hh

/-- `generateSHA256` (`src/utils/hash.js` lines 8-10): hex-encoded SHA-256 of a
buffer. -/
def generateSHA256 (buffer : Bytes) : List Char := hexEncode (sha256 buffer)

theorem sha256_length (msg : Bytes) : (sha256 msg).length = 32 := by
  simp [sha256, wordBytes]

theorem generateSHA256_length (buffer : Bytes) : (generateSHA256 buffer).length = 64 := by
  rw [generateSHA256, hexEncode_length, sha256_length]

/-! ## Version store and commit orchestrator (documents controller, `createDocument` /
`addVersion`)

The controller is embedded as a pure function over an explicit environment (the
responses of the external collaborators: user lookup, Pinata upload, blockchain
service, and whether the local inserts succeed), an explicit relational state,
and an explicit trace of the effects it performs. Console logging is modelled
only for the transaction-reference line the failure analysis needs. -/

/-- A multer upload (`req.file`). -/
structure UploadedFile where
  mimetype : String
  size : Nat
  buffer : Bytes
  originalname : String
  deriving DecidableEq, Repr

/-- A row of the `documents` table. -/
structure DocRow where
  id : String
  userId : Nat
  blockchainDocumentId : Nat
  title : String
  deriving DecidableEq, Repr

/-- A row of the `document_versions` table. -/
structure VersionRow where
  documentId : String
  versionNumber : Nat
  ipfsCid : String
  fileHash : List Char
  blockchainTxHash : String
  encryptedKeyPayload : List Char
  deriving DecidableEq, Repr

/-- The local relational store. -/
structure DB where
  documents : List DocRow
  versions : List VersionRow
  deriving DecidableEq, Repr

/-- Observable effects of one controller invocation, in order. -/
inductive Event
  | queriedUsers (userId : Nat)
  | queriedDocuments (documentId : String)
  | hashed (buffer : Bytes)
  | encrypted (buffer : Bytes)
  | uploaded (buffer : Bytes) (name : String)
  | ledgerCreate (owner : String) (title : String) (cid : String) (fileHash : List Char)
  | ledgerAddVersion (blockchainDocumentId : Nat) (cid : String) (fileHash : List Char)
  | insertedDocument (row : DocRow)
  | insertedVersion (row : VersionRow)
  | txCommitted
  | txRolledBack
  | logged (msg : String)
  deriving DecidableEq, Repr

/-- An error thrown by a collaborator: the services throw objects with an HTTP
`status` (or a bare `Error` without one) and a message. -/
structure AppError where
  status : Option Nat
  message : String
  deriving DecidableEq, Repr

/-- What `blockchainService.createDocument` resolves with: the transaction hash
and the document id parsed from the `DocumentCreated` event (absent when the
event could not be parsed). -/
structure BlockchainCreateResult where
  txHash : String
  documentId : Option Nat
  deriving DecidableEq, Repr

/-- HTTP response body variants the controller produces. -/
inductive ResponseBody
  | errorMsg (msg : String)
  | createdDocument (documentId : String) (blockchainDocumentId : Nat) (version : Nat)
      (txHash : String)
  | createdVersion (documentId : String) (version : Nat) (txHash : String)
  deriving DecidableEq, Repr

/-- An HTTP response. -/
structure HttpResponse where
  status : Nat
  body : ResponseBody
  deriving DecidableEq, Repr

/-- The catch-block mapping of `createDocument`: `error.status` if present,
otherwise 500 with a generic message. -/
def createErrorResponse (e : AppError) : HttpResponse :=
  match e.status with
  | some s => ⟨s, .errorMsg e.message⟩
  | none => ⟨500, .errorMsg "Failed to create document"⟩

/-- The catch-block mapping of `addVersion`. -/
def addVersionErrorResponse (e : AppError) : HttpResponse :=
  match e.status with
  | some s => ⟨s, .errorMsg e.message⟩
  | none => ⟨500, .errorMsg "Failed to add version"⟩

/-- Environment of one `createDocument` invocation: what each external
collaborator would answer. -/
structure CreateEnv where
  /-- Result of `SELECT wallet_address FROM users WHERE id = userId`:
  `none` when no row, otherwise the (nullable) wallet address. -/
  userRow : Option (Option String)
  /-- `pinataService.uploadFile`: the CID, or the thrown error. -/
  pinata : Except AppError String
  /-- `blockchainService.createDocument`: result, or the thrown error. -/
  blockchain : Except AppError BlockchainCreateResult
  /-- `RETURNING id` of the `documents` insert. -/
  nextDocId : String
  /-- Whether the `documents` insert succeeds. -/
  docInsertOk : Bool
  /-- Whether the `document_versions` insert succeeds. -/
  versionInsertOk : Bool
  deriving Repr

/-- Environment of one `addVersion` invocation. -/
structure AppendEnv where
  /-- `pinataService.uploadFile`: the CID, or the thrown error. -/
  pinata : Except AppError String
  /-- `blockchainService.addVersion`: the transaction hash, or the thrown
  error. -/
  blockchain : Except AppError String
  /-- Whether the `document_versions` insert succeeds. -/
  versionInsertOk : Bool
  deriving Repr

/-- The UUID shape check of `addVersion` (regex
`^[0-9a-f]{8}-[0-9a-f]{4}-[0-9a-f]{4}-[0-9a-f]{4}-[0-9a-f]{12}$`, flag `i`). -/
def isUuidFormat (s : String) : Bool :=
  let parts := (s.toList).splitOn '-'
  decide (parts.map List.length = [8, 4, 4, 4, 12]) &&
    parts.all fun p => p.all fun c =>
      decide ((48 ≤ c.toNat ∧ c.toNat ≤ 57) ∨ (97 ≤ c.toNat ∧ c.toNat ≤ 102) ∨
        (65 ≤ c.toNat ∧ c.toNat ≤ 70))

/-- `COALESCE(MAX(version_number), 0)` over a document's version rows. -/
def maxVersionNumber (db : DB) (documentId : String) : Nat :=
  ((db.versions.filter fun v => v.documentId = documentId).map
    VersionRow.versionNumber).foldl max 0

/-- The 20MB upload limit. -/
def maxSize : Nat := 20 * 1024 * 1024

/-- `String.prototype.trim`, modelled over the character list. -/
def jsTrim (s : String) : String :=
  ⟨((s.data.dropWhile Char.isWhitespace).reverse.dropWhile Char.isWhitespace).reverse⟩

/-- `createDocument` (documents controller): validate title, file presence,
MIME type and size; look up the user's wallet; hash; encrypt; upload to
Pinata; create on chain; extract the ledger document id; then insert the
`documents` and `document_versions` rows in one transaction (version number
fixed at 1), rolling back and answering 500 on any insert failure. -/
def createDocument (A : AEAD) (MASTER_KEY : Bytes) (rnd : EncRandomness)
    (env : CreateEnv) (db : DB) (userId : Nat) (title : String)
    (file? : Option UploadedFile) : HttpResponse × DB × List Event :=
  if jsTrim title = "" then
    (⟨400, .errorMsg "Document title is required"⟩, db, [])
  else
    match file? with
    | none => (⟨400, .errorMsg "PDF file is required"⟩, db, [])
    | some file =>
      if file.mimetype ≠ "application/pdf" then
        (⟨400, .errorMsg "File must be a PDF"⟩, db, [])
      else if file.size > maxSize then
        (⟨400, .errorMsg "File size exceeds 20MB limit"⟩, db, [])
      else
        match env.userRow with
        | none => (⟨404, .errorMsg "User not found"⟩, db, [.queriedUsers userId])
        | some none =>
            (⟨400, .errorMsg "User must have a wallet address to create documents"⟩, db,
             [.queriedUsers userId])
        | some (some userWalletAddress) =>
            let fileHash := generateSHA256 file.buffer
            let encRes := encryptFile A MASTER_KEY rnd file.buffer
            let trace0 : List Event :=
              [.queriedUsers userId, .hashed file.buffer, .encrypted file.buffer,
               .uploaded encRes.1 file.originalname]
            match env.pinata with
            | .error e => (createErrorResponse e, db, trace0)
            | .ok cid =>
              let trace1 := trace0 ++ [.ledgerCreate userWalletAddress title cid fileHash]
              match env.blockchain with
              | .error e => (createErrorResponse e, db, trace1)
              | .ok bres =>
                match bres.documentId with
                | none => (⟨500, .errorMsg "Failed to create document"⟩, db, trace1)
                | some blockchainDocumentId =>
                  let txHash := bres.txHash
                  let trace2 := trace1 ++ [.logged ("  Transaction: " ++ txHash)]
                  if env.docInsertOk then
                    let docRow : DocRow := ⟨env.nextDocId, userId, blockchainDocumentId, title⟩
                    if env.versionInsertOk then
                      let verRow : VersionRow :=
                        ⟨env.nextDocId, 1, cid, fileHash, txHash, encRes.2⟩
                      (⟨201, .createdDocument env.nextDocId blockchainDocumentId 1 txHash⟩,
                       ⟨db.documents ++ [docRow], db.versions ++ [verRow]⟩,
                       trace2 ++ [.insertedDocument docRow, .insertedVersion verRow,
                        .txCommitted])
                    else
                      (⟨500, .errorMsg "Failed to create document"⟩, db,
                       trace2 ++ [.insertedDocument docRow, .txRolledBack])
                  else
                    (⟨500, .errorMsg "Failed to create document"⟩, db,
                     trace2 ++ [.txRolledBack])

/-- `addVersion` (documents controller): validate the document id shape, load
the document and check ownership, validate the file; hash; encrypt; upload;
add the version on chain; then in one transaction read
`COALESCE(MAX(version_number), 0)`, insert the version row with that maximum
plus one, rolling back and answering 500 on insert failure. -/
def addVersion (A : AEAD) (MASTER_KEY : Bytes) (rnd : EncRandomness)
    (env : AppendEnv) (db : DB) (userId : Nat) (documentId : String)
    (file? : Option UploadedFile) : HttpResponse × DB × List Event :=
  if ¬ isUuidFormat documentId then
    (⟨400, .errorMsg "Invalid document ID format"⟩, db, [])
  else
    match db.documents.find? fun d => d.id = documentId with
    | none => (⟨404, .errorMsg "Document not found"⟩, db, [.queriedDocuments documentId])
    | some document =>
      if document.userId ≠ userId then
        (⟨403, .errorMsg "You do not have permission to modify this document"⟩, db,
         [.queriedDocuments documentId])
      else
        match file? with
        | none => (⟨400, .errorMsg "PDF file is required"⟩, db, [.queriedDocuments documentId])
        | some file =>
          if file.mimetype ≠ "application/pdf" then
            (⟨400, .errorMsg "File must be a PDF"⟩, db, [.queriedDocuments documentId])
          else if file.size > maxSize then
            (⟨400, .errorMsg "File size exceeds 20MB limit"⟩, db,
             [.queriedDocuments documentId])
          else
            let fileHash := generateSHA256 file.buffer
            let encRes := encryptFile A MASTER_KEY rnd file.buffer
            let trace0 : List Event :=
              [.queriedDocuments documentId, .hashed file.buffer, .encrypted file.buffer,
               .uploaded encRes.1 file.originalname]
            match env.pinata with
            | .error e => (addVersionErrorResponse e, db, trace0)
            | .ok cid =>
              let trace1 :=
                trace0 ++ [.ledgerAddVersion document.blockchainDocumentId cid fileHash]
              match env.blockchain with
              | .error e => (addVersionErrorResponse e, db, trace1)
              | .ok txHash =>
                let trace2 := trace1 ++ [.logged ("  Transaction: " ++ txHash)]
                let nextVersion := maxVersionNumber db documentId + 1
                let verRow : VersionRow :=
                  ⟨documentId, nextVersion, cid, fileHash, txHash, encRes.2⟩
                if env.versionInsertOk then
                  (⟨201, .createdVersion documentId nextVersion txHash⟩,
                   ⟨db.documents, db.versions ++ [verRow]⟩,
                   trace2 ++ [.insertedVersion verRow, .txCommitted])
                else
                  (⟨500, .errorMsg "Failed to add version"⟩, db, trace2 ++ [.txRolledBack])

/-- C8: for a create-document commit, if the ledger confirmation succeeds but
the ledger-assigned document identifier cannot be extracted from the event
data, the commit aborts with an error (500, generic message) and no Document or
Version row is written; and if the confirmation reports failure (the blockchain
service throws), the commit aborts with that error's mapped response and again
writes nothing. -/
theorem C8_ledger_id_extraction_failure
    (A : AEAD) (MASTER_KEY : Bytes) (rnd : EncRandomness) (env : CreateEnv)
    (db : DB) (userId : Nat) (title : String) (file : UploadedFile) (wallet : String)
    (cid : String)
    (ht : ¬ jsTrim title = "") (hm : file.mimetype = "application/pdf")
    (hs : ¬ file.size > maxSize) (hw : env.userRow = some (some wallet))
    (hp : env.pinata = .ok cid) :
    (∀ bres, env.blockchain = .ok bres → bres.documentId = none →
      createDocument A MASTER_KEY rnd env db userId title (some file) =
        (⟨500, .errorMsg "Failed to create document"⟩, db,
          [.queriedUsers userId, .hashed file.buffer, .encrypted file.buffer,
           .uploaded (encryptFile A MASTER_KEY rnd file.buffer).1 file.originalname,
           .ledgerCreate wallet title cid (generateSHA256 file.buffer)])) ∧
    (∀ e, env.blockchain = .error e →
      createDocument A MASTER_KEY rnd env db userId title (some file) =
        (createErrorResponse e, db,
          [.queriedUsers userId, .hashed file.buffer, .encrypted file.buffer,
           .uploaded (encryptFile A MASTER_KEY rnd file.buffer).1 file.originalname,
           .ledgerCreate wallet title cid (generateSHA256 file.buffer)])) := by
  constructor
  · intro bres hb hid
    simp [createDocument, ht, hm, hs, hw, hp, hb, hid]
  · intro e hb
    simp [createDocument, ht, hm, hs, hw, hp, hb]

/-- A concrete valid PDF upload. -/
def cFile : UploadedFile := ⟨"application/pdf", 3, [1, 2, 3], "doc.pdf"⟩

/-- A concrete non-PDF upload. -/
def cBadFile : UploadedFile := ⟨"text/plain", 3, [1, 2, 3], "doc.txt"⟩

/-- The empty relational state. -/
def emptyDB : DB := ⟨[], []⟩

/-- A concrete environment whose ledger confirmation lacks the document id. -/
def c8Env : CreateEnv :=
  ⟨some (some "0xWallet"), .ok "QmCid", .ok ⟨"0xtxhash", none⟩,
   "22222222-2222-2222-2222-222222222222", true, true⟩

/-- C8 witness: a concrete create whose confirmation carries no document id
aborts with 500 and writes nothing. -/
theorem C8_witness :
    createDocument toyAEAD wMasterKey wRnd c8Env emptyDB 1 "Report" (some cFile) =
      (⟨500, .errorMsg "Failed to create document"⟩, emptyDB,
        [.queriedUsers 1, .hashed cFile.buffer, .encrypted cFile.buffer,
         .uploaded (encryptFile toyAEAD wMasterKey wRnd cFile.buffer).1 cFile.originalname,
         .ledgerCreate "0xWallet" "Report" "QmCid" (generateSHA256 cFile.buffer)]) :=
  (C8_ledger_id_extraction_failure toyAEAD wMasterKey wRnd c8Env emptyDB 1 "Report" cFile
    "0xWallet" "QmCid" (by decide) rfl (by decide) rfl rfl).1 ⟨"0xtxhash", none⟩ rfl rfl

/-- C3: if the local persistence stage fails after a successful ledger write,
the transaction is rolled back so the local store is unchanged (no Version row,
and for a create no Document row, for that attempt), the orchestrator answers
the 500 persistence error rather than silent success, and the ledger
transaction reference has been recorded in the log trace for reconciliation. -/
theorem C3_late_persistence_failure :
    (∀ (A : AEAD) (MASTER_KEY : Bytes) (rnd : EncRandomness) (env : CreateEnv)
       (db : DB) (userId : Nat) (title : String) (file : UploadedFile)
       (wallet cid : String) (bres : BlockchainCreateResult) (bid : Nat),
       ¬ jsTrim title = "" → file.mimetype = "application/pdf" →
       ¬ file.size > maxSize → env.userRow = some (some wallet) →
       env.pinata = .ok cid → env.blockchain = .ok bres →
       bres.documentId = some bid →
       ¬ (env.docInsertOk = true ∧ env.versionInsertOk = true) →
       (createDocument A MASTER_KEY rnd env db userId title (some file)).1 =
         ⟨500, .errorMsg "Failed to create document"⟩ ∧
       (createDocument A MASTER_KEY rnd env db userId title (some file)).2.1 = db ∧
       Event.logged ("  Transaction: " ++ bres.txHash) ∈
         (createDocument A MASTER_KEY rnd env db userId title (some file)).2.2 ∧
       Event.txRolledBack ∈
         (createDocument A MASTER_KEY rnd env db userId title (some file)).2.2) ∧
    (∀ (A : AEAD) (MASTER_KEY : Bytes) (rnd : EncRandomness) (env : AppendEnv)
       (db : DB) (userId : Nat) (documentId : String) (file : UploadedFile)
       (doc : DocRow) (cid txHash : String),
       isUuidFormat documentId = true →
       db.documents.find? (fun d => d.id = documentId) = some doc →
       doc.userId = userId → file.mimetype = "application/pdf" →
       ¬ file.size > maxSize → env.pinata = .ok cid →
       env.blockchain = .ok txHash → env.versionInsertOk = false →
       (addVersion A MASTER_KEY rnd env db userId documentId (some file)).1 =
         ⟨500, .errorMsg "Failed to add version"⟩ ∧
       (addVersion A MASTER_KEY rnd env db userId documentId (some file)).2.1 = db ∧
       Event.logged ("  Transaction: " ++ txHash) ∈
         (addVersion A MASTER_KEY rnd env db userId documentId (some file)).2.2 ∧
       Event.txRolledBack ∈
         (addVersion A MASTER_KEY rnd env db userId documentId (some file)).2.2) := by
  constructor
  · intro A MASTER_KEY rnd env db userId title file wallet cid bres bid
      ht hm hs hw hp hb hid hfail
    cases hdoc : env.docInsertOk with
    | false => simp [createDocument, ht, hm, hs, hw, hp, hb, hid, hdoc]
    | true =>
        cases hver : env.versionInsertOk with
        | false => simp [createDocument, ht, hm, hs, hw, hp, hb, hid, hdoc, hver]
        | true => exact absurd ⟨hdoc, hver⟩ hfail
  · intro A MASTER_KEY rnd env db userId documentId file doc cid txHash
      huuid hfind howner hm hs hp hb hver
    simp [addVersion, huuid, hfind, howner, hm, hs, hp, hb, hver]

/-- A concrete create environment whose version insert fails after ledger
success. -/
def c3Env : CreateEnv :=
  ⟨some (some "0xWallet"), .ok "QmCid", .ok ⟨"0xtxhash", some 5⟩,
   "22222222-2222-2222-2222-222222222222", true, false⟩

/-- C3 witness: the create-side late-failure conclusion evaluated on a concrete
environment. -/
theorem C3_witness :
    (createDocument toyAEAD wMasterKey wRnd c3Env emptyDB 1 "Report" (some cFile)).1 =
      ⟨500, .errorMsg "Failed to create document"⟩ ∧
    (createDocument toyAEAD wMasterKey wRnd c3Env emptyDB 1 "Report" (some cFile)).2.1 =
      emptyDB ∧
    Event.logged ("  Transaction: " ++ "0xtxhash") ∈
      (createDocument toyAEAD wMasterKey wRnd c3Env emptyDB 1 "Report" (some cFile)).2.2 ∧
    Event.txRolledBack ∈
      (createDocument toyAEAD wMasterKey wRnd c3Env emptyDB 1 "Report" (some cFile)).2.2 :=
  C3_late_persistence_failure.1 toyAEAD wMasterKey wRnd c3Env emptyDB 1 "Report" cFile
    "0xWallet" "QmCid" ⟨"0xtxhash", some 5⟩ 5 (by decide) rfl (by decide) rfl rfl rfl rfl
    (by decide)

/-- The version numbers recorded for one document. -/
def versionNumbersOf (db : DB) (documentId : String) : List Nat :=
  (db.versions.filter fun v => v.documentId = documentId).map VersionRow.versionNumber

theorem maxVersionNumber_eq (db : DB) (documentId : String) :
    maxVersionNumber db documentId = (versionNumbersOf db documentId).foldl max 0 := rfl

/-- A multiset of version numbers is exactly `{1, ..., length}`. -/
def ContiguousFromOne (l : List Nat) : Prop :=
  ∀ n, l.count n = if 1 ≤ n ∧ n ≤ l.length then 1 else 0

/-- Every document's version numbers form a contiguous sequence from 1. -/
def VersionInvariant (db : DB) : Prop :=
  ∀ documentId, ContiguousFromOne (versionNumbersOf db documentId)

theorem foldlMax_init_le : ∀ (l : List Nat) (a : Nat), a ≤ l.foldl max a := by
  intro l
  induction l with
  | nil => intro a; exact Nat.le_refl a
  | cons x l ih =>
      intro a
      exact le_trans (Nat.le_max_left a x) (ih (max a x))

theorem foldlMax_mem_le : ∀ (l : List Nat) (a : Nat), ∀ x ∈ l, x ≤ l.foldl max a := by
  intro l
  induction l with
  | nil => intro a x hx; exact absurd hx (List.not_mem_nil x)
  | cons y l ih =>
      intro a x hx
      rcases List.mem_cons.1 hx with rfl | hx
      · exact le_trans (Nat.le_max_right a x) (foldlMax_init_le l (max a x))
      · exact ih (max a y) x hx

theorem foldlMax_le_of_all_le : ∀ (l : List Nat) (a m : Nat), a ≤ m →
    (∀ x ∈ l, x ≤ m) → l.foldl max a ≤ m := by
  intro l
  induction l with
  | nil => intro a m ha _; exact ha
  | cons y l ih =>
      intro a m ha hall
      exact ih (max a y) m (Nat.max_le.2 ⟨ha, hall y (by simp)⟩)
        fun x hx => hall x (by simp [hx])

theorem contiguous_mem {l : List Nat} (h : ContiguousFromOne l) (n : Nat) :
    n ∈ l ↔ (1 ≤ n ∧ n ≤ l.length) := by
  have hc := h n
  constructor
  · intro hmem
    by_contra hcon
    rw [if_neg hcon] at hc
    exact absurd (List.count_pos_iff.2 hmem) (by omega)
  · intro hrange
    rw [if_pos hrange] at hc
    exact List.count_pos_iff.1 (by omega)

theorem contiguous_foldl_max {l : List Nat} (h : ContiguousFromOne l) :
    l.foldl max 0 = l.length := by
  rcases Nat.eq_zero_or_pos l.length with hlen | hlen
  · rw [List.length_eq_zero.1 hlen]
    rfl
  · apply Nat.le_antisymm
    · exact foldlMax_le_of_all_le l 0 l.length (Nat.zero_le _)
        fun x hx => ((contiguous_mem h x).1 hx).2
    · exact foldlMax_mem_le l 0 l.length ((contiguous_mem h l.length).2 ⟨hlen, le_refl _⟩)

theorem count_singleton_nat (a b : Nat) :
    List.count a [b] = if a = b then 1 else 0 := by
  by_cases h : a = b
  · subst h
    simp
  · rw [if_neg h, List.count_eq_zero]
    simp [h]

theorem contiguous_singleton_one : ContiguousFromOne [1] := by
  intro n
  rw [count_singleton_nat]
  simp only [List.length_singleton]
  split_ifs <;> omega

theorem contiguous_append_next {l : List Nat} (h : ContiguousFromOne l) :
    ContiguousFromOne (l ++ [l.length + 1]) := by
  intro n
  rw [List.count_append, h n, count_singleton_nat]
  simp only [List.length_append, List.length_singleton]
  split_ifs <;> omega

theorem versionNumbersOf_insert (docs : List DocRow) (vs : List VersionRow)
    (row : VersionRow) (documentId : String) :
    versionNumbersOf ⟨docs, vs ++ [row]⟩ documentId =
      versionNumbersOf ⟨docs, vs⟩ documentId ++
        (if row.documentId = documentId then [row.versionNumber] else []) := by
  by_cases h : row.documentId = documentId
  · simp [versionNumbersOf, List.filter_append, List.filter_cons, h]
  · simp [versionNumbersOf, List.filter_append, List.filter_cons, h]

theorem versionNumbersOf_documents_irrelevant (docs docs2 : List DocRow)
    (vs : List VersionRow) (documentId : String) :
    versionNumbersOf ⟨docs, vs⟩ documentId = versionNumbersOf ⟨docs2, vs⟩ documentId := rfl

/-- C7: a successful create commit inserts exactly one Version row with version
number fixed at 1 (next to the new Document row), a successful append inserts
exactly one Version row numbered `max(existing) + 1`, existing rows are never
edited or renumbered, and the per-document contiguous-from-1 numbering
invariant is preserved by both operations. -/
theorem C7_version_numbering :
    (∀ (A : AEAD) (MASTER_KEY : Bytes) (rnd : EncRandomness) (env : CreateEnv)
       (db : DB) (userId : Nat) (title : String) (file : UploadedFile)
       (wallet cid : String) (bres : BlockchainCreateResult) (bid : Nat),
       ¬ jsTrim title = "" → file.mimetype = "application/pdf" →
       ¬ file.size > maxSize → env.userRow = some (some wallet) →
       env.pinata = .ok cid → env.blockchain = .ok bres →
       bres.documentId = some bid → env.docInsertOk = true →
       env.versionInsertOk = true →
       (createDocument A MASTER_KEY rnd env db userId title (some file)).1 =
         ⟨201, .createdDocument env.nextDocId bid 1 bres.txHash⟩ ∧
       (createDocument A MASTER_KEY rnd env db userId title (some file)).2.1 =
         ⟨db.documents ++ [⟨env.nextDocId, userId, bid, title⟩],
          db.versions ++ [⟨env.nextDocId, 1, cid, generateSHA256 file.buffer,
            bres.txHash, (encryptFile A MASTER_KEY rnd file.buffer).2⟩]⟩ ∧
       (VersionInvariant db → versionNumbersOf db env.nextDocId = [] →
         VersionInvariant
           ⟨db.documents ++ [⟨env.nextDocId, userId, bid, title⟩],
            db.versions ++ [⟨env.nextDocId, 1, cid, generateSHA256 file.buffer,
              bres.txHash, (encryptFile A MASTER_KEY rnd file.buffer).2⟩]⟩)) ∧
    (∀ (A : AEAD) (MASTER_KEY : Bytes) (rnd : EncRandomness) (env : AppendEnv)
       (db : DB) (userId : Nat) (documentId : String) (file : UploadedFile)
       (doc : DocRow) (cid txHash : String),
       isUuidFormat documentId = true →
       db.documents.find? (fun d => d.id = documentId) = some doc →
       doc.userId = userId → file.mimetype = "application/pdf" →
       ¬ file.size > maxSize → env.pinata = .ok cid →
       env.blockchain = .ok txHash → env.versionInsertOk = true →
       (addVersion A MASTER_KEY rnd env db userId documentId (some file)).1 =
         ⟨201, .createdVersion documentId (maxVersionNumber db documentId + 1) txHash⟩ ∧
       (addVersion A MASTER_KEY rnd env db userId documentId (some file)).2.1 =
         ⟨db.documents,
          db.versions ++ [⟨documentId, maxVersionNumber db documentId + 1, cid,
            generateSHA256 file.buffer, txHash,
            (encryptFile A MASTER_KEY rnd file.buffer).2⟩]⟩ ∧
       (VersionInvariant db →
         VersionInvariant
           ⟨db.documents,
            db.versions ++ [⟨documentId, maxVersionNumber db documentId + 1, cid,
              generateSHA256 file.buffer, txHash,
              (encryptFile A MASTER_KEY rnd file.buffer).2⟩]⟩)) := by
  constructor
  · intro A MASTER_KEY rnd env db userId title file wallet cid bres bid
      ht hm hs hw hp hb hid hdoc hver
    refine ⟨?_, ?_, ?_⟩
    · simp [createDocument, ht, hm, hs, hw, hp, hb, hid, hdoc, hver]
    · simp [createDocument, ht, hm, hs, hw, hp, hb, hid, hdoc, hver]
    · intro hinv hfresh documentId2
      rw [versionNumbersOf_insert]
      show ContiguousFromOne (versionNumbersOf ⟨db.documents, db.versions⟩ documentId2 ++ _)
      by_cases hid2 : env.nextDocId = documentId2
      · rw [if_pos hid2, ← hid2]
        have : versionNumbersOf ⟨db.documents, db.versions⟩ env.nextDocId =
            versionNumbersOf db env.nextDocId := rfl
        rw [this, hfresh]
        exact contiguous_singleton_one
      · rw [if_neg hid2, List.append_nil]
        exact hinv documentId2
  · intro A MASTER_KEY rnd env db userId documentId file doc cid txHash
      huuid hfind howner hm hs hp hb hver
    refine ⟨?_, ?_, ?_⟩
    · simp [addVersion, huuid, hfind, howner, hm, hs, hp, hb, hver]
    · simp [addVersion, huuid, hfind, howner, hm, hs, hp, hb, hver]
    · intro hinv documentId2
      rw [versionNumbersOf_insert]
      show ContiguousFromOne (versionNumbersOf ⟨db.documents, db.versions⟩ documentId2 ++ _)
      have hsame : ∀ s, versionNumbersOf ⟨db.documents, db.versions⟩ s =
          versionNumbersOf db s := fun _ => rfl
      by_cases hid2 : documentId = documentId2
      · rw [if_pos hid2, ← hid2, hsame, maxVersionNumber_eq,
          contiguous_foldl_max (hinv documentId)]
        exact contiguous_append_next (hinv documentId)
      · rw [if_neg hid2, List.append_nil, hsame]
        exact hinv documentId2

/-- A concrete document row. -/
def c7Doc : DocRow := ⟨"11111111-1111-1111-1111-111111111111", 1, 5, "Report"⟩

/-- A concrete first version row for `c7Doc`. -/
def c7Ver1 : VersionRow :=
  ⟨"11111111-1111-1111-1111-111111111111", 1, "QmOld", ['a', 'b'], "0xtx0", ['0', '0']⟩

/-- A concrete store holding `c7Doc` with one version. -/
def c7Db : DB := ⟨[c7Doc], [c7Ver1]⟩

/-- A concrete append environment where everything succeeds. -/
def c7AppEnv : AppendEnv := ⟨.ok "QmCid2", .ok "0xtx2", true⟩

/-- C7 witness: appending to a concrete document with one version returns
version `max + 1` and appends exactly that row. -/
theorem C7_witness :
    (addVersion toyAEAD wMasterKey wRnd c7AppEnv c7Db 1
        "11111111-1111-1111-1111-111111111111" (some cFile)).1 =
      ⟨201, .createdVersion "11111111-1111-1111-1111-111111111111"
        (maxVersionNumber c7Db "11111111-1111-1111-1111-111111111111" + 1) "0xtx2"⟩ ∧
    (addVersion toyAEAD wMasterKey wRnd c7AppEnv c7Db 1
        "11111111-1111-1111-1111-111111111111" (some cFile)).2.1 =
      ⟨c7Db.documents,
       c7Db.versions ++ [⟨"11111111-1111-1111-1111-111111111111",
         maxVersionNumber c7Db "11111111-1111-1111-1111-111111111111" + 1, "QmCid2",
         generateSHA256 cFile.buffer, "0xtx2",
         (encryptFile toyAEAD wMasterKey wRnd cFile.buffer).2⟩]⟩ ∧
    (VersionInvariant c7Db →
      VersionInvariant
        ⟨c7Db.documents,
         c7Db.versions ++ [⟨"11111111-1111-1111-1111-111111111111",
           maxVersionNumber c7Db "11111111-1111-1111-1111-111111111111" + 1, "QmCid2",
           generateSHA256 cFile.buffer, "0xtx2",
           (encryptFile toyAEAD wMasterKey wRnd cFile.buffer).2⟩]⟩) :=
  C7_version_numbering.2 toyAEAD wMasterKey wRnd c7AppEnv c7Db 1
    "11111111-1111-1111-1111-111111111111" cFile c7Doc "QmCid2" "0xtx2"
    (by decide) (by decide) rfl rfl (by decide) rfl rfl rfl

/-- C6: the integrity hash is the deterministic, side-effect-free hex-encoded
SHA-256 digest (64 hex characters) of the original unencrypted bytes, and the
create orchestrator feeds the hasher and the encryption engine the exact same
plaintext buffer — the hash is never computed over ciphertext, and every
committed Version row carries the hash of that plaintext buffer. -/
theorem C6_hash_of_plaintext :
    (∀ buffer : Bytes, generateSHA256 buffer = hexEncode (sha256 buffer) ∧
      (generateSHA256 buffer).length = 64) ∧
    (∀ (A : AEAD) (MASTER_KEY : Bytes) (rnd : EncRandomness) (env : CreateEnv)
       (db : DB) (userId : Nat) (title : String) (file : UploadedFile) (wallet : String),
       ¬ jsTrim title = "" → file.mimetype = "application/pdf" →
       ¬ file.size > maxSize → env.userRow = some (some wallet) →
       Event.hashed file.buffer ∈
         (createDocument A MASTER_KEY rnd env db userId title (some file)).2.2 ∧
       Event.encrypted file.buffer ∈
         (createDocument A MASTER_KEY rnd env db userId title (some file)).2.2 ∧
       (∀ buf, Event.hashed buf ∈
         (createDocument A MASTER_KEY rnd env db userId title (some file)).2.2 →
         buf = file.buffer) ∧
       (∀ row, Event.insertedVersion row ∈
         (createDocument A MASTER_KEY rnd env db userId title (some file)).2.2 →
         row.fileHash = generateSHA256 file.buffer)) := by
  constructor
  · intro buffer
    exact ⟨rfl, generateSHA256_length buffer⟩
  · intro A MASTER_KEY rnd env db userId title file wallet ht hm hs hw
    cases hp : env.pinata with
    | error e =>
        refine ⟨?_, ?_, ?_, ?_⟩ <;> simp [createDocument, ht, hm, hs, hw, hp]
    | ok cid =>
        cases hb : env.blockchain with
        | error e =>
            refine ⟨?_, ?_, ?_, ?_⟩ <;> simp [createDocument, ht, hm, hs, hw, hp, hb]
        | ok bres =>
            cases hbid : bres.documentId with
            | none =>
                refine ⟨?_, ?_, ?_, ?_⟩ <;>
                  simp [createDocument, ht, hm, hs, hw, hp, hb, hbid]
            | some bid =>
                cases hdoc : env.docInsertOk with
                | false =>
                    refine ⟨?_, ?_, ?_, ?_⟩ <;>
                      simp [createDocument, ht, hm, hs, hw, hp, hb, hbid, hdoc]
                | true =>
                    cases hver : env.versionInsertOk with
                    | false =>
                        refine ⟨?_, ?_, ?_, ?_⟩ <;>
                          simp [createDocument, ht, hm, hs, hw, hp, hb, hbid, hdoc, hver]
                    | true =>
                        refine ⟨?_, ?_, ?_, ?_⟩ <;>
                          simp [createDocument, ht, hm, hs, hw, hp, hb, hbid, hdoc, hver]

/-- A concrete create environment where every stage succeeds. -/
def c6Env : CreateEnv :=
  ⟨some (some "0xWallet"), .ok "QmCid", .ok ⟨"0xtxhash", some 5⟩,
   "22222222-2222-2222-2222-222222222222", true, true⟩

/-- C6 witness: the hashing facts evaluated on a concrete successful create. -/
theorem C6_witness :
    Event.hashed cFile.buffer ∈
      (createDocument toyAEAD wMasterKey wRnd c6Env emptyDB 1 "Report" (some cFile)).2.2 ∧
    Event.encrypted cFile.buffer ∈
      (createDocument toyAEAD wMasterKey wRnd c6Env emptyDB 1 "Report" (some cFile)).2.2 ∧
    (∀ buf, Event.hashed buf ∈
      (createDocument toyAEAD wMasterKey wRnd c6Env emptyDB 1 "Report" (some cFile)).2.2 →
      buf = cFile.buffer) ∧
    (∀ row, Event.insertedVersion row ∈
      (createDocument toyAEAD wMasterKey wRnd c6Env emptyDB 1 "Report" (some cFile)).2.2 →
      row.fileHash = generateSHA256 cFile.buffer) :=
  C6_hash_of_plaintext.2 toyAEAD wMasterKey wRnd c6Env emptyDB 1 "Report" cFile
    "0xWallet" (by decide) rfl (by decide) rfl

/-- A store holding `c7Doc` (owned by user 1) and no versions. -/
def c10Db : DB := ⟨[c7Doc], []⟩

/-- C10 counterexample: an append request by user 2 for user 1's document with
a non-PDF MIME type is rejected with 403 (the ownership check precedes the
MIME check), not with a 400 validation error as the claim states. -/
theorem C10_counterexample :
    cBadFile.mimetype ≠ "application/pdf" ∧
    (addVersion toyAEAD wMasterKey wRnd c7AppEnv c10Db 2
        "11111111-1111-1111-1111-111111111111" (some cBadFile)).1 =
      ⟨403, .errorMsg "You do not have permission to modify this document"⟩ ∧
    (addVersion toyAEAD wMasterKey wRnd c7AppEnv c10Db 2
        "11111111-1111-1111-1111-111111111111" (some cBadFile)).1.status ≠ 400 := by
  refine ⟨by decide, by decide, by decide⟩

/-- C10 (amended): a create request with a non-PDF MIME type is always rejected
with 400 before any effect (empty trace, store unchanged); an append request
with a non-PDF MIME type is also rejected before hashing, encryption, upload,
ledger write or insertion — its trace holds at most the document ownership
lookup and the store is unchanged — and the rejection is the 400 MIME error
whenever the id-format, existence and ownership checks pass (otherwise those
checks' 400/404/403 answer wins). -/
theorem C10_mime_rejected_before_effects :
    (∀ (A : AEAD) (MASTER_KEY : Bytes) (rnd : EncRandomness) (env : CreateEnv)
       (db : DB) (userId : Nat) (title : String) (file : UploadedFile),
       file.mimetype ≠ "application/pdf" →
       (createDocument A MASTER_KEY rnd env db userId title (some file)).1.status = 400 ∧
       (createDocument A MASTER_KEY rnd env db userId title (some file)).2.1 = db ∧
       (createDocument A MASTER_KEY rnd env db userId title (some file)).2.2 = []) ∧
    (∀ (A : AEAD) (MASTER_KEY : Bytes) (rnd : EncRandomness) (env : AppendEnv)
       (db : DB) (userId : Nat) (documentId : String) (file : UploadedFile),
       file.mimetype ≠ "application/pdf" →
       (addVersion A MASTER_KEY rnd env db userId documentId (some file)).2.1 = db ∧
       (∀ e ∈ (addVersion A MASTER_KEY rnd env db userId documentId (some file)).2.2,
         e = Event.queriedDocuments documentId) ∧
       (∀ doc : DocRow, isUuidFormat documentId = true →
         db.documents.find? (fun d => d.id = documentId) = some doc →
         doc.userId = userId →
         (addVersion A MASTER_KEY rnd env db userId documentId (some file)).1 =
           ⟨400, .errorMsg "File must be a PDF"⟩)) := by
  constructor
  · intro A MASTER_KEY rnd env db userId title file hm
    by_cases ht : jsTrim title = ""
    · refine ⟨?_, ?_, ?_⟩ <;> simp [createDocument, ht]
    · refine ⟨?_, ?_, ?_⟩ <;> simp [createDocument, ht, hm]
  · intro A MASTER_KEY rnd env db userId documentId file hm
    by_cases huuid : isUuidFormat documentId = true
    · cases hfind : db.documents.find? (fun d => d.id = documentId) with
      | none =>
          refine ⟨?_, ?_, ?_⟩
          · simp [addVersion, huuid, hfind]
          · simp [addVersion, huuid, hfind]
          · intro doc _ h2 _
            exact absurd h2 (by simp)
      | some document =>
          by_cases howner : document.userId = userId
          · refine ⟨?_, ?_, ?_⟩
            · simp [addVersion, huuid, hfind, howner, hm]
            · simp [addVersion, huuid, hfind, howner, hm]
            · intro doc _ _ _
              simp [addVersion, huuid, hfind, howner, hm]
          · refine ⟨?_, ?_, ?_⟩
            · simp [addVersion, huuid, hfind, howner]
            · simp [addVersion, huuid, hfind, howner]
            · intro doc _ h2 h3
              injection h2 with h4
              subst h4
              exact absurd h3 howner
    · refine ⟨?_, ?_, ?_⟩
      · simp [addVersion, huuid]
      · simp [addVersion, huuid]
      · intro doc h1 _ _
        exact absurd h1 huuid

/-- C10 witness: the amended create-side conclusion on a concrete non-PDF
upload. -/
theorem C10_witness :
    (createDocument toyAEAD wMasterKey wRnd c6Env emptyDB 1 "Report"
        (some cBadFile)).1.status = 400 ∧
    (createDocument toyAEAD wMasterKey wRnd c6Env emptyDB 1 "Report"
        (some cBadFile)).2.1 = emptyDB ∧
    (createDocument toyAEAD wMasterKey wRnd c6Env emptyDB 1 "Report"
        (some cBadFile)).2.2 = [] :=
  C10_mime_rejected_before_effects.1 toyAEAD wMasterKey wRnd c6Env emptyDB 1 "Report"
    cBadFile (by decide)

/-! ## The append-version race (`addVersion` transaction, lines 306-330)

The `BEGIN` / `SELECT COALESCE(MAX(version_number), 0)` / `INSERT` / `COMMIT`
sequence runs under PostgreSQL's default READ COMMITTED isolation with the
schema's `UNIQUE(document_id, version_number)` constraint
(`unique_document_version`). Two concurrent append transactions on one
document are modelled as interleaved atomic steps: a read sees only committed
rows (the other transaction's uncommitted insert is invisible), and a commit
lands the pending insert unless a committed row already holds that version
number, in which case the constraint rejects it and the transaction fails and
rolls back. -/

/-- Phase of one append transaction. -/
inductive TxnPhase
  | start
  | readDone (next : Nat)
  | committed (next : Nat)
  | failed
  deriving DecidableEq, Repr

/-- Committed version numbers of the document plus both transactions' phases. -/
structure RaceState where
  rows : List Nat
  t1 : TxnPhase
  t2 : TxnPhase
  deriving DecidableEq, Repr

/-- An atomic step of one of the two transactions. -/
inductive RaceStep
  | read1
  | read2
  | commit1
  | commit2
  deriving DecidableEq, Repr

/-- `max` of the committed version numbers (`COALESCE(MAX(..), 0)`). -/
def listMax (l : List Nat) : Nat := l.foldl max 0

/-- The `SELECT MAX` step: compute `max(committed) + 1`. -/
def readPhase (rows : List Nat) : TxnPhase → TxnPhase
  | .start => .readDone (listMax rows + 1)
  | p => p

/-- The `INSERT`+`COMMIT` step: rejected by the unique constraint when the
number is already committed. -/
def commitPhase (rows : List Nat) : TxnPhase → TxnPhase × List Nat
  | .readDone n => if n ∈ rows then (.failed, rows) else (.committed n, rows ++ [n])
  | p => (p, rows)

/-- One interleaving step. -/
def raceStep (s : RaceState) : RaceStep → RaceState
  | .read1 => { s with t1 := readPhase s.rows s.t1 }
  | .read2 => { s with t2 := readPhase s.rows s.t2 }
  | .commit1 =>
      let r := commitPhase s.rows s.t1
      { s with t1 := r.1, rows := r.2 }
  | .commit2 =>
      let r := commitPhase s.rows s.t2
      { s with t2 := r.1, rows := r.2 }

/-- Run a schedule of interleaved steps. -/
def runRace (init : RaceState) (sched : List RaceStep) : RaceState :=
  sched.foldl raceStep init

/-- C2 counterexample: on a document with versions `{1}` committed, the
schedule where both appends read the max before either commits makes both
compute next version 2; the first commits version 2 and the second fails on
the unique constraint — the outcome is `{1, 2}` with one failed append, not
the claimed `{2, 3}` both committed. -/
theorem C2_counterexample :
    runRace ⟨[1], .start, .start⟩ [.read1, .read2, .commit1, .commit2] =
      ⟨[1, 2], .committed 2, .failed⟩ ∧
    (runRace ⟨[1], .start, .start⟩ [.read1, .read2, .commit1, .commit2]).rows ≠
      [1, 2, 3] ∧
    (runRace ⟨[1], .start, .start⟩ [.read1, .read2, .commit1, .commit2]).t2 ≠
      .committed 3 := by
  refine ⟨by decide, by decide, by decide⟩

theorem nodup_append_singleton {l : List Nat} {n : Nat} (h : l.Nodup) (hn : n ∉ l) :
    (l ++ [n]).Nodup := by
  rw [List.nodup_append]
  refine ⟨h, List.nodup_singleton n, ?_⟩
  intro a ha hmem
  rw [List.mem_singleton] at hmem
  subst hmem
  exact hn ha

/-- C2 (amended): the read-max-then-insert sequence does not serialize, so two
concurrent appends can be assigned the same next version number (see the
counterexample); what holds is that committed version numbers never contain
duplicates under any interleaving — the unique constraint rejects the second
insert of a duplicated number, failing that append — and that fully serialized
appends do assign `{k+1, ..., 2k+1}`. -/
theorem C2_race_outcome :
    (∀ (init : RaceState) (sched : List RaceStep), init.rows.Nodup →
      (runRace init sched).rows.Nodup) ∧
    runRace ⟨[1], .start, .start⟩ [.read1, .commit1, .read2, .commit2] =
      ⟨[1, 2, 3], .committed 2, .committed 3⟩ := by
  constructor
  · intro init sched
    induction sched generalizing init with
    | nil => intro h; exact h
    | cons s rest ih =>
        intro h
        have hstep : (raceStep init s).rows.Nodup := by
          cases s with
          | read1 => exact h
          | read2 => exact h
          | commit1 =>
              show ((commitPhase init.rows init.t1).2).Nodup
              cases ht : init.t1 with
              | readDone n =>
                  by_cases hn : n ∈ init.rows
                  · simp only [commitPhase, if_pos hn]
                    exact h
                  · simp only [commitPhase, if_neg hn]
                    exact nodup_append_singleton h hn
              | start => exact h
              | committed n => exact h
              | failed => exact h
          | commit2 =>
              show ((commitPhase init.rows init.t2).2).Nodup
              cases ht : init.t2 with
              | readDone n =>
                  by_cases hn : n ∈ init.rows
                  · simp only [commitPhase, if_pos hn]
                    exact h
                  · simp only [commitPhase, if_neg hn]
                    exact nodup_append_singleton h hn
              | start => exact h
              | committed n => exact h
              | failed => exact h
        exact ih (raceStep init s) hstep
  · decide

/-- C2 witness: duplicate-freedom evaluated on the concrete racy schedule. -/
theorem C2_witness :
    ([1] : List Nat).Nodup ∧
    (runRace ⟨[1], .start, .start⟩ [.read1, .read2, .commit1, .commit2]).rows.Nodup :=
  ⟨by decide,
    C2_race_outcome.1 ⟨[1], .start, .start⟩ [.read1, .read2, .commit1, .commit2]
      (by decide)⟩
